import Mathlib

/-!
Verification development for the retail-transaction batch data-cleaning
pipeline (ETL core).  The repository ships the test suite for an `ETLscript`
module; the module itself is not part of the sources available here, so the
core functions below are modelled from the specification document (each such
definition says so in its doc comment).  Machine numbers are modelled as `Int`
(integers) and `Rat` (prices); dates are strings in the `YYYY-MM-DD` schema
format; nullable columns are `Option` fields.
-/

namespace ETL

/-- Modelled from the spec: the configured date format is `YYYY-MM-DD`.
Leap-year rule for February used by a real calendar-date check. -/
def isLeap (y : Nat) : Bool :=
  (y % 4 == 0 && y % 100 != 0) || y % 400 == 0

/-- Modelled from the spec: number of days of month `m` in year `y`
(months counted 1..12). -/
def daysInMonth (y m : Nat) : Nat :=
  if m = 2 then (if isLeap y then 29 else 28)
  else if m = 4 ∨ m = 6 ∨ m = 9 ∨ m = 11 then 30
  else 31

/-- Numeric value of a decimal digit character. -/
def digitVal (c : Char) : Nat := c.toNat - 48

/-- Modelled from the spec: structural validity of a date string against the
configured `YYYY-MM-DD` format (four digit year, two digit month in 1..12,
two digit day in the month's range), the check `strptime` performs.
A malformed string is invalid, never an error. -/
def parsesDate (s : String) : Bool :=
  match s.toList with
  | [y1, y2, y3, y4, h1, m1, m2, h2, d1, d2] =>
    y1.isDigit && y2.isDigit && y3.isDigit && y4.isDigit &&
    h1 == '-' && m1.isDigit && m2.isDigit && h2 == '-' &&
    d1.isDigit && d2.isDigit &&
    (let y := ((digitVal y1 * 10 + digitVal y2) * 10 + digitVal y3) * 10 + digitVal y4
     let m := digitVal m1 * 10 + digitVal m2
     let d := digitVal d1 * 10 + digitVal d2
     decide (1 ≤ m) && decide (m ≤ 12) && decide (1 ≤ d) && decide (d ≤ daysInMonth y m))
  | _ => false

/-- An optional candidate is valid when it is present and parses against the
configured format. -/
def isValidOpt : Option String → Bool
  | some s => parsesDate s
  | none => false

/-- Modelled from the spec: `CONFIG["DATE_DEFAULT"]`, the configured default
date constant returned when no candidate parses.  The spec fixes it to be a
date string in the schema's `YYYY-MM-DD` format but does not give its value;
a representative constant is used. -/
def CONFIG_DATE_DEFAULT : String := "1900-01-01"

/-- Modelled from the spec: `CONFIG["VALID_CATEGORIES"]`, the fixed
category whitelist (exact-match, case-sensitive). -/
def CONFIG_VALID_CATEGORIES : List String := ["Electronics", "Beauty", "Clothing"]

/-- Modelled from the spec: `CONFIG["SCHEMA"]` column names, in order. -/
def CONFIG_SCHEMA_COLUMNS : List String :=
  ["TransactionID", "Date", "CustomerID", "Gender", "Age",
   "ProductCategory", "Quantity", "UnitPrice", "TotalPrice"]

/-- One try-parse step of the resolver: keep the candidate when it parses,
otherwise discard it (malformed input raises no error). -/
def tryCandidate : Option String → Option String
  | some s => if parsesDate s then some s else none
  | none => none

/-- First candidate, in list order, that parses successfully. -/
def firstParsed : List (Option String) → Option String
  | [] => none
  | c :: rest =>
    match tryCandidate c with
    | some s => some s
    | none => firstParsed rest

/-- Modelled from the spec: `clean_date(candidate1, candidate2, candidate3)`
(DateResolver).  Tries the three optional candidates in priority order and
returns the first that parses against the configured date format; if none
parses it returns the configured default date constant. -/
def clean_date (c1 c2 c3 : Option String) : String :=
  (firstParsed [c1, c2, c3]).getD CONFIG_DATE_DEFAULT

/-- A transaction record in the fixed column schema.  The fields are, in
tuple-position order 0..8: TransactionID, Date, CustomerID, Gender, Age,
ProductCategory, Quantity, UnitPrice, TotalPrice; each column is nullable
(`Option`), as in the tabular engine. -/
structure Row where
  transactionID : Option Int
  date : Option String
  customerID : Option String
  gender : Option String
  age : Option Int
  productCategory : Option String
  quantity : Option Int
  unitPrice : Option Rat
  totalPrice : Option Rat
deriving DecidableEq

/-- Modelled from the spec: `validate_age(records)` (AgeValidator).  For each
record, an Age outside [0,120] inclusive is replaced with null, otherwise it
passes through unchanged; an already-null Age stays null; no row is dropped. -/
def validate_age (l : List Row) : List Row :=
  l.map fun r =>
    { r with age := match r.age with
                    | some a => if 0 ≤ a ∧ a ≤ 120 then some a else none
                    | none => none }

/-- Modelled from the spec: `validate_categories(records)` (CategoryValidator).
For each record, a ProductCategory not in the configured whitelist is replaced
with null (exact-match, case-sensitive); members and nulls pass through. -/
def validate_categories (l : List Row) : List Row :=
  l.map fun r =>
    { r with productCategory :=
        match r.productCategory with
        | some c => if c ∈ CONFIG_VALID_CATEGORIES then some c else none
        | none => none }

/-- Modelled from the spec: `validate_price_per_unit(row)` (PriceReconciler),
operating on a single fixed-position record (positions 6, 7, 8 are Quantity,
UnitPrice, TotalPrice).  A present UnitPrice is authoritative and passes
through; a null UnitPrice is filled with TotalPrice / Quantity when Quantity
is positive and TotalPrice is present; otherwise it stays null.  Pure: a new
record is returned, only the UnitPrice field replaced. -/
def validate_price_per_unit (r : Row) : Row :=
  match r.unitPrice, r.quantity, r.totalPrice with
  | none, some q, some t =>
    if 0 < q then { r with unitPrice := some (t / (q : Rat)) } else r
  | _, _, _ => r

/-- Modelled from the spec: `contains_duplicates(records, key_column)`
(DuplicateDetector).  Compares the count of distinct key values with the
total record count; the key column is a selector over records. -/
def contains_duplicates {α β : Type} [DecidableEq β]
    (l : List α) (key : α → β) : Bool :=
  decide ((l.map key).dedup.length < l.length)

/-- Whether the value of column `c` is null in record `r` (schema columns
only; the name-to-position mapping of the fixed schema). -/
def isNullAt (c : String) (r : Row) : Bool :=
  if c == "TransactionID" then r.transactionID.isNone
  else if c == "Date" then r.date.isNone
  else if c == "CustomerID" then r.customerID.isNone
  else if c == "Gender" then r.gender.isNone
  else if c == "Age" then r.age.isNone
  else if c == "ProductCategory" then r.productCategory.isNone
  else if c == "Quantity" then r.quantity.isNone
  else if c == "UnitPrice" then r.unitPrice.isNone
  else if c == "TotalPrice" then r.totalPrice.isNone
  else false

/-- A record with no null column at all. -/
def noNulls (r : Row) : Bool :=
  !r.transactionID.isNone && !r.date.isNone && !r.customerID.isNone &&
  !r.gender.isNone && !r.age.isNone && !r.productCategory.isNone &&
  !r.quantity.isNone && !r.unitPrice.isNone && !r.totalPrice.isNone

/-- Modelled from the spec: `count_null_values_per_column(records)`
(NullAuditor).  For every configured schema column, in order, the count of
records whose value in that column is null. -/
def count_null_values_per_column (l : List Row) : List (String × Nat) :=
  CONFIG_SCHEMA_COLUMNS.map fun c => (c, l.countP fun r => isNullAt c r)

/-- Modelled from the spec: the per-row date-resolution step of the pipeline.
DateResolver is applied per row over the date-source columns; with the
configured nine-column schema the single Date column is the first (and only
present) candidate. -/
def resolve_row_date (r : Row) : Row :=
  { r with date := some (clean_date r.date none none) }

/-- Modelled from the spec: `run_etl_pipeline` (PipelineRunner) on the rows
the ingestion collaborator read successfully.  Applies DateResolver per row,
then AgeValidator, CategoryValidator and PriceReconciler, and returns the
cleaned collection; no row is dropped and no per-row error path exists. -/
def run_etl_pipeline (rows : List Row) : List Row :=
  (validate_categories (validate_age (rows.map resolve_row_date))).map
    validate_price_per_unit

/-- The fully clean sample row
`(1, "2024-01-01", "C001", "M", 25, "Electronics", 2, 100.0, 200.0)`. -/
def cleanRow : Row :=
  ⟨some 1, some "2024-01-01", some "C001", some "M", some 25,
   some "Electronics", some 2, some 100, some 200⟩

/-- The clean sample row with a null UnitPrice (position 7), as in the
null-handling price test. -/
def nullPriceRow : Row :=
  ⟨some 1, some "2024-01-01", some "C001", some "M", some 25,
   some "Electronics", some 2, none, some 200⟩

/-- A two-row dataset whose second row has a null Age, for the null audit. -/
def agedRows : List Row :=
  [cleanRow,
   ⟨some 2, some "2024-01-02", some "C002", some "F", none,
    some "Beauty", some 1, some 50, some 50⟩]

end ETL

namespace ETL

theorem firstParsed_cons (c : Option String) (rest : List (Option String)) :
    firstParsed (c :: rest) = if isValidOpt c then c else firstParsed rest := by
  cases c with
  | none => simp [firstParsed, tryCandidate, isValidOpt]
  | some s =>
    by_cases h : parsesDate s
    · simp [firstParsed, tryCandidate, isValidOpt, h]
    · simp [firstParsed, tryCandidate, isValidOpt, h]

/-- C1 (amended): `clean_date` returns the first candidate, in priority order
(candidate1, candidate2, candidate3), that parses against the configured
format, and the configured default when none parses; the result equals the
default date constant exactly when no candidate parses or the first parsing
candidate happens to coincide with the default constant. -/
theorem clean_date_first_valid (c1 c2 c3 : Option String) :
    clean_date c1 c2 c3 =
      (if isValidOpt c1 then c1.getD CONFIG_DATE_DEFAULT
       else if isValidOpt c2 then c2.getD CONFIG_DATE_DEFAULT
       else if isValidOpt c3 then c3.getD CONFIG_DATE_DEFAULT
       else CONFIG_DATE_DEFAULT)
    ∧ (clean_date c1 c2 c3 = CONFIG_DATE_DEFAULT ↔
        firstParsed [c1, c2, c3] = none ∨
        firstParsed [c1, c2, c3] = some CONFIG_DATE_DEFAULT) := by
  constructor
  · rw [clean_date, firstParsed_cons, firstParsed_cons, firstParsed_cons]
    split_ifs <;> rfl
  · rw [clean_date]
    cases h : firstParsed [c1, c2, c3] <;> simp

/-- C1 (counterexample to the claim as stated): on the input whose first
candidate is the default date constant itself, `clean_date` returns the
configured default constant although not all three candidates are invalid. -/
theorem clean_date_default_coincidence :
    clean_date (some CONFIG_DATE_DEFAULT) none none = CONFIG_DATE_DEFAULT
    ∧ isValidOpt (some CONFIG_DATE_DEFAULT) = true := by
  constructor
  · decide
  · decide

/-- C2 (counterexample): on the all-valid triple
`("2024-01-01", "2024-01-02", "2024-01-03")`, `clean_date` does not return
the second candidate `"2024-01-02"`. -/
theorem clean_date_triple_not_second :
    clean_date (some "2024-01-01") (some "2024-01-02") (some "2024-01-03")
      ≠ "2024-01-02" := by
  decide

/-- C2 (amended): on the all-valid triple
`("2024-01-01", "2024-01-02", "2024-01-03")`, `clean_date` returns the first
candidate `"2024-01-01"`, following the documented priority order. -/
theorem clean_date_triple_first :
    clean_date (some "2024-01-01") (some "2024-01-02") (some "2024-01-03")
      = "2024-01-01" := by
  decide

/-- C3: `validate_price_per_unit` computes the UnitPrice field of a record
as follows: a present UnitPrice with positive Quantity passes through
unchanged; a null UnitPrice with positive Quantity and present TotalPrice is
set to TotalPrice / Quantity; with Quantity zero or missing a null UnitPrice
cannot be derived and is left null. -/
theorem validate_price_per_unit_policy (r : Row) :
    (∀ u q, r.unitPrice = some u → r.quantity = some q → 0 < q →
      (validate_price_per_unit r).unitPrice = some u)
    ∧ (∀ q t, r.unitPrice = none → r.quantity = some q → 0 < q →
        r.totalPrice = some t →
        (validate_price_per_unit r).unitPrice = some (t / (q : Rat)))
    ∧ ((r.quantity = some 0 ∨ r.quantity = none) → r.unitPrice = none →
        (validate_price_per_unit r).unitPrice = none) := by
  obtain ⟨tid, dt, cid, g, a, pc, q, up, tp⟩ := r
  refine ⟨?_, ?_, ?_⟩
  · rintro u qv hu hq hpos
    simp only at hu hq
    subst hu
    subst hq
    cases tp <;> simp [validate_price_per_unit]
  · rintro qv t hu hq hpos ht
    simp only at hu hq ht
    subst hu
    subst hq
    subst ht
    simp [validate_price_per_unit, hpos]
  · rintro (hq | hq) hu <;> simp only at hu hq <;> subst hu <;> subst hq <;>
      cases tp <;> simp [validate_price_per_unit]

/-- C3 witness: on the sample row with a null UnitPrice, Quantity 2 and
TotalPrice 200, the reconciled UnitPrice is 100. -/
theorem validate_price_per_unit_policy_witness :
    (validate_price_per_unit nullPriceRow).unitPrice = some 100 := by
  have h := (validate_price_per_unit_policy nullPriceRow).2.1 2 200 rfl rfl
    (by norm_num) rfl
  rw [h]
  norm_num

/-- C9: `validate_price_per_unit` is idempotent: applied to its own output it
returns that output unchanged. -/
theorem validate_price_per_unit_idempotent (r : Row) :
    validate_price_per_unit (validate_price_per_unit r)
      = validate_price_per_unit r := by
  obtain ⟨tid, dt, cid, g, a, pc, q, up, tp⟩ := r
  cases up with
  | some u => cases q <;> cases tp <;> rfl
  | none =>
    cases q with
    | none => cases tp <;> rfl
    | some qv =>
      cases tp with
      | none => rfl
      | some t =>
        by_cases h : 0 < qv
        · simp [validate_price_per_unit, h]
        · simp [validate_price_per_unit, h]

/-- C10: `validate_price_per_unit` returns a record in which every field
other than UnitPrice is unchanged from the input (a pure, frame-preserving
transformation). -/
theorem validate_price_per_unit_frame (r : Row) :
    (validate_price_per_unit r).transactionID = r.transactionID
    ∧ (validate_price_per_unit r).date = r.date
    ∧ (validate_price_per_unit r).customerID = r.customerID
    ∧ (validate_price_per_unit r).gender = r.gender
    ∧ (validate_price_per_unit r).age = r.age
    ∧ (validate_price_per_unit r).productCategory = r.productCategory
    ∧ (validate_price_per_unit r).quantity = r.quantity
    ∧ (validate_price_per_unit r).totalPrice = r.totalPrice := by
  obtain ⟨tid, dt, cid, g, a, pc, q, up, tp⟩ := r
  cases up <;> cases q <;> cases tp <;> simp only [validate_price_per_unit] <;>
    first
      | simp
      | (split <;> simp)

theorem dedup_length_lt_iff {β : Type} [DecidableEq β] (m : List β) :
    m.dedup.length < m.length ↔ ¬ m.Nodup := by
  constructor
  · intro h hn
    rw [List.dedup_eq_self.mpr hn] at h
    exact lt_irrefl _ h
  · intro hn
    rcases Nat.lt_or_ge m.dedup.length m.length with h | h
    · exact h
    · exfalso
      have hle := m.dedup_sublist.length_le
      have heq : m.dedup.length = m.length := le_antisymm hle h
      have hself := m.dedup_sublist.eq_of_length heq
      exact hn (hself ▸ m.nodup_dedup)

/-- C4: `contains_duplicates` is true exactly when the count of distinct key
values is strictly below the record count, equivalently when the list of key
values has a repeated element; only the key is compared, so records equal on
the key but differing elsewhere still count as duplicates. -/
theorem contains_duplicates_iff {α β : Type} [DecidableEq β]
    (l : List α) (key : α → β) :
    (contains_duplicates l key = true ↔ (l.map key).dedup.length < l.length)
    ∧ (contains_duplicates l key = true ↔ ¬ (l.map key).Nodup) := by
  have hbase : contains_duplicates l key = true ↔
      (l.map key).dedup.length < l.length := by
    simp [contains_duplicates]
  refine ⟨hbase, hbase.trans ?_⟩
  rw [show l.length = (l.map key).length from (List.length_map l key).symm]
  exact dedup_length_lt_iff (l.map key)

/-- C5: `validate_age` keeps every record (no row dropped) and maps each
record's Age to itself when it lies in [0,120] inclusive and to null
otherwise; a null Age stays null. -/
theorem validate_age_pointwise (l : List Row) (i : Nat) :
    (validate_age l).length = l.length
    ∧ ((validate_age l)[i]?).map Row.age =
        (l[i]?).map fun r =>
          match r.age with
          | some a => if 0 ≤ a ∧ a ≤ 120 then some a else none
          | none => none := by
  constructor
  · simp [validate_age]
  · cases h : l[i]? with
    | none => simp [validate_age, List.getElem?_map, h]
    | some r => simp [validate_age, List.getElem?_map, h]

/-- C6: `validate_categories` maps each record's ProductCategory to itself
when it is a member of the configured whitelist (exact, case-sensitive match)
and to null otherwise; a null category stays null. -/
theorem validate_categories_pointwise (l : List Row) (i : Nat) :
    (validate_categories l).length = l.length
    ∧ ((validate_categories l)[i]?).map Row.productCategory =
        (l[i]?).map fun r =>
          match r.productCategory with
          | some c => if c ∈ CONFIG_VALID_CATEGORIES then some c else none
          | none => none := by
  constructor
  · simp [validate_categories]
  · cases h : l[i]? with
    | none => simp [validate_categories, List.getElem?_map, h]
    | some r => simp [validate_categories, List.getElem?_map, h]

theorem isNullAt_eq_false_of_noNulls (c : String) (r : Row)
    (h : noNulls r = true) : isNullAt c r = false := by
  simp only [noNulls, Bool.and_eq_true, Bool.not_eq_true', Option.isNone_eq_false_iff] at h
  obtain ⟨⟨⟨⟨⟨⟨⟨⟨h1, h2⟩, h3⟩, h4⟩, h5⟩, h6⟩, h7⟩, h8⟩, h9⟩ := h
  rw [isNullAt]
  split_ifs <;>
    simp_all [Option.isNone_eq_false_iff]

/-- C7: the null audit report has exactly the configured schema columns as
keys, in order; each column's value is the exact count of records null in
that column; and every count is 0 on a dataset with no null values. -/
theorem count_null_values_per_column_spec (l : List Row) :
    (count_null_values_per_column l).map Prod.fst = CONFIG_SCHEMA_COLUMNS
    ∧ (∀ c, c ∈ CONFIG_SCHEMA_COLUMNS →
        (c, l.countP fun r => isNullAt c r) ∈ count_null_values_per_column l)
    ∧ (∀ p, p ∈ count_null_values_per_column l →
        p.2 = l.countP fun r => isNullAt p.1 r)
    ∧ ((∀ r, r ∈ l → noNulls r = true) →
        ∀ p, p ∈ count_null_values_per_column l → p.2 = 0) := by
  have hexact : ∀ p, p ∈ count_null_values_per_column l →
      p.2 = l.countP fun r => isNullAt p.1 r := by
    intro p hp
    rw [count_null_values_per_column] at hp
    obtain ⟨c, _, hpc⟩ := List.mem_map.mp hp
    rw [← hpc]
  refine ⟨?_, ?_, hexact, ?_⟩
  · rw [count_null_values_per_column, List.map_map]
    simp [Function.comp_def]
  · intro c hc
    exact List.mem_map_of_mem _ hc
  · intro hnn p hp
    rw [hexact p hp]
    rw [List.countP_eq_zero]
    intro r hr
    simp [isNullAt_eq_false_of_noNulls p.1 r (hnn r hr)]

/-- C7 witness: on the two-row dataset whose second row has a null Age, the
audit report contains the pair (Age, 1), and 1 is the exact null count of
the Age column. -/
theorem count_null_values_per_column_witness :
    (("Age", 1) : String × Nat) ∈ count_null_values_per_column agedRows
    ∧ (1 : Nat) = agedRows.countP fun r => isNullAt "Age" r := by
  have hmem : (("Age", 1) : String × Nat) ∈ count_null_values_per_column agedRows := by
    decide
  exact ⟨hmem, (count_null_values_per_column_spec agedRows).2.2.1 ("Age", 1) hmem⟩

/-- C8: the pipeline is total — every ingested dataset yields exactly one
output row per input row, for any input, with malformed fields repaired by
nulling/defaulting rather than row loss — and the fully clean sample row
passes through the whole pipeline unchanged. -/
theorem run_etl_pipeline_total_and_clean :
    (∀ rows : List Row, (run_etl_pipeline rows).length = rows.length)
    ∧ run_etl_pipeline [cleanRow] = [cleanRow] := by
  constructor
  · intro rows
    simp [run_etl_pipeline, validate_age, validate_categories]
  · decide

end ETL
